import Mathlib

/-!
Verification of the track session core of the mixxx-plugin-librespot
repository.  The definitions below are a shallow embedding of the Rust
sources:

  - src/audio/track.rs   : Subfile, OpenedTrack
  - src/audio/loader.rs  : TrackLoader (open / close / seek / alternatives)
  - src/main.rs          : TrackService::read (chunked read session)

Machine integers are modelled as Nat/Int with explicit 64-bit (u64) and
16-bit (u16) wrap-around where the Rust code can wrap.  External streams
are modelled as a list of bytes together with a cursor position.
-/

/-- Modulus of Rust u64 arithmetic. -/
def U64MOD : Nat := 2 ^ 64

/-- Modulus of Rust u16 arithmetic (the AtomicU16 ref count). -/
def U16MOD : Nat := 2 ^ 16

/-- Wrapping u64 addition, as in release-mode Rust. -/
def u64add (a b : Nat) : Nat := (a + b) % U64MOD

/-- Wrapping u64 subtraction, as in release-mode Rust. -/
def u64sub (a b : Nat) : Nat := (a % U64MOD + (U64MOD - b % U64MOD)) % U64MOD

/-- The Rust cast `x as i64` applied to an unsigned 64-bit quantity. -/
def castToI64 (n : Nat) : Int :=
  if n % U64MOD < 2 ^ 63 then ((n % U64MOD : Nat) : Int)
  else ((n % U64MOD : Nat) : Int) - (U64MOD : Int)

/-- A seekable, readable byte stream: the model of the underlying
decrypted remote file (`AudioDecrypt<AudioFile>`). -/
structure ByteStream where
  data : List Nat
  pos : Nat
deriving Repr, DecidableEq

/-- std::io::SeekFrom. -/
inductive SeekFrom where
  | Start : Nat → SeekFrom
  | End : Int → SeekFrom
  | Current : Int → SeekFrom
deriving Repr, DecidableEq

/-- Reading up to n bytes from the stream at its cursor; a read past the
end returns the available suffix (possibly zero bytes). -/
def ByteStream.read (s : ByteStream) (n : Nat) : List Nat × ByteStream :=
  let k := min n (s.data.length - s.pos)
  ((s.data.drop s.pos).take k, { s with pos := s.pos + k })

/-- Seeking the underlying stream; per std::io semantics a seek before
position zero fails, a seek past the end is allowed. -/
def ByteStream.seek (s : ByteStream) (pos : SeekFrom) : Except String (Nat × ByteStream) :=
  match pos with
  | .Start p => .ok (p, { s with pos := p })
  | .End e =>
      let t : Int := (s.data.length : Int) + e
      if t < 0 then .error "invalid seek to a negative position"
      else .ok (t.toNat, { s with pos := t.toNat })
  | .Current d =>
      let t : Int := (s.pos : Int) + d
      if t < 0 then .error "invalid seek to a negative position"
      else .ok (t.toNat, { s with pos := t.toNat })

/-- src/audio/track.rs: `Subfile` — a window [offset, offset+length) over
an underlying stream. -/
structure Subfile where
  stream : ByteStream
  offset : Nat
  length : Nat
deriving Repr, DecidableEq

/-- src/audio/track.rs: `Subfile::new` — seeks the stream to `offset`. -/
def Subfile.new (stream : ByteStream) (offset length : Nat) : Except String Subfile :=
  match stream.seek (.Start offset) with
  | .error e => .error e
  | .ok (_, s2) => .ok { stream := s2, offset := offset, length := length }

/-- src/audio/track.rs: `impl Read for Subfile` — forwards directly to
the underlying stream. -/
def Subfile.read (f : Subfile) (n : Nat) : List Nat × Subfile :=
  let r := f.stream.read n
  (r.1, { f with stream := r.2 })

/-- src/audio/track.rs: `impl Seek for Subfile`.  `Start(p)` is mapped to
`Start(p + offset)` (wrapping u64 add); `End(e)` is rejected when
`(length as i64 - e) < offset as i64`; `Current` is forwarded unchanged;
the returned position is `newpos - offset` (wrapping u64 sub). -/
def Subfile.seek (f : Subfile) (pos : SeekFrom) : Except String (Nat × Subfile) :=
  let posResult : Except String SeekFrom :=
    match pos with
    | .Start offset => .ok (.Start (u64add offset f.offset))
    | .End offset =>
        if castToI64 f.length - offset < castToI64 f.offset then
          .error "newpos would be < self.offset"
        else .ok pos
    | .Current _ => .ok pos
  match posResult with
  | .error e => .error e
  | .ok pos2 =>
    match f.stream.seek pos2 with
    | .error e => .error e
    | .ok (newpos, s2) => .ok (u64sub newpos f.offset, { f with stream := s2 })

/-- Claim C6: for a local position p in [0, length), `seek(Start(p))`
seeks the underlying stream to the absolute position offset+p, returns
the local position p, and a subsequent read yields exactly the bytes
obtained by reading the underlying stream directly at offset+p. -/
theorem subfile_seek_start_read (s : ByteStream) (off len p n : Nat)
    (hp : p < len) (hov : off + p < U64MOD) :
    (Subfile.mk s off len).seek (.Start p) =
      .ok (p, Subfile.mk (ByteStream.mk s.data (off + p)) off len) ∧
    ((Subfile.mk (ByteStream.mk s.data (off + p)) off len).read n).1 =
      ((ByteStream.mk s.data (off + p)).read n).1 := by
  obtain ⟨data, pos⟩ := s
  have hoff : off < U64MOD := by omega
  have h1 : u64add p off = off + p := by
    simp only [u64add]
    rw [Nat.add_comm p off]
    exact Nat.mod_eq_of_lt hov
  have h2 : u64sub (off + p) off = p := by
    simp only [u64sub, U64MOD] at *
    rw [Nat.mod_eq_of_lt hov, Nat.mod_eq_of_lt hoff]
    have h3 : off + p + (2 ^ 64 - off) = p + 2 ^ 64 := by omega
    rw [h3, Nat.add_mod_right]
    exact Nat.mod_eq_of_lt (by omega)
  constructor
  · simp [Subfile.seek, ByteStream.seek, h1, h2]
  · rfl

/-- Closed instance of subfile_seek_start_read. -/
theorem subfile_seek_start_read_witness :
    (Subfile.mk (ByteStream.mk (List.replicate 20 7) 0) 2 5).seek (.Start 3) =
      .ok (3, Subfile.mk (ByteStream.mk (List.replicate 20 7) 5) 2 5) ∧
    ((Subfile.mk (ByteStream.mk (List.replicate 20 7) 5) 2 5).read 4).1 =
      ((ByteStream.mk (List.replicate 20 7) 5).read 4).1 :=
  subfile_seek_start_read (ByteStream.mk (List.replicate 20 7) 0) 2 5 3 4
    (by decide) (by decide)

/-- Claim C2: the guard of `seek(End(e))` has a sign error: it computes
`length - e` where the resulting absolute position is `length + e`.  On a
100-byte stream windowed at offset 10, `seek(End(-95))` targets absolute
position 5, which precedes the offset 10 and so must fail according to
the spec; the code instead forwards the seek and returns
`5u64 - 10u64`, which wraps around to 2^64 - 5. -/
theorem subfile_seek_end_sign_bug :
    ((100 : Int) + (-95) < (10 : Int)) ∧
    (Subfile.mk (ByteStream.mk (List.replicate 100 0) 10) 10 100).seek (.End (-95)) =
      .ok (U64MOD - 5, Subfile.mk (ByteStream.mk (List.replicate 100 0) 5) 10 100) :=
  ⟨by decide, by rfl⟩

/-- librespot_metadata::audio::AudioFileFormat. -/
inductive AudioFileFormat where
  | OGG_VORBIS_96
  | OGG_VORBIS_160
  | OGG_VORBIS_320
  | MP3_256
  | MP3_320
  | MP3_160
  | MP3_96
  | MP3_160_ENC
  | AAC_24
  | AAC_48
  | FLAC_FLAC
deriving Repr, DecidableEq

/-- librespot_audio::StreamLoaderController, reduced to the capability the
registry uses: reporting the remote file length. -/
structure StreamLoaderController where
  len : Nat
deriving Repr, DecidableEq

/-- src/audio/track.rs: `OpenedTrack` — one cached open track: the boxed
decrypted+windowed stream, its controller, an AtomicU16 ref count and the
resolved format. -/
structure OpenedTrack where
  file : Subfile
  controller : StreamLoaderController
  ref_count : Nat
  audio_format : AudioFileFormat
deriving Repr, DecidableEq

/-- src/audio/track.rs: `OpenedTrack::new` — ref count starts at 1. -/
def OpenedTrack.new (file : Subfile) (controller : StreamLoaderController)
    (audio_format : AudioFileFormat) : OpenedTrack :=
  { file := file, controller := controller, ref_count := 1, audio_format := audio_format }

/-- `fetch_add(1)` on the AtomicU16: returns the previous value and the
updated track (u16 wrap-around). -/
def OpenedTrack.incr_ref (t : OpenedTrack) : Nat × OpenedTrack :=
  (t.ref_count, { t with ref_count := (t.ref_count + 1) % U16MOD })

/-- `fetch_sub(1)` on the AtomicU16: returns the previous value and the
updated track (u16 wrap-around). -/
def OpenedTrack.decr_ref (t : OpenedTrack) : Nat × OpenedTrack :=
  (t.ref_count, { t with ref_count := (t.ref_count + (U16MOD - 1)) % U16MOD })

/-- `OpenedTrack::len` forwards to the controller. -/
def OpenedTrack.len (t : OpenedTrack) : Nat := t.controller.len

/-- `OpenedTrack::format`. -/
def OpenedTrack.format (t : OpenedTrack) : AudioFileFormat := t.audio_format

abbrev SpotifyId := Nat

/-- The successful outcome of `TrackLoader::load_track`: the windowed
decrypted stream, the chosen format and the stream-loader controller.
`load_track` itself performs network acquisition through external
capabilities; its outcome is passed to `TrackLoader.open` as an oracle
argument. -/
structure LoadedTrack where
  file : Subfile
  format : AudioFileFormat
  controller : StreamLoaderController
deriving Repr, DecidableEq

/-- src/audio/loader.rs: `TrackLoader` — the registry of opened tracks.
The backing HashMap is modelled as a function to Option. -/
structure TrackLoader where
  opened_tracks : SpotifyId → Option OpenedTrack

/-- `TrackLoader::get_opened`. -/
def TrackLoader.get_opened (l : TrackLoader) (track : SpotifyId) : Option OpenedTrack :=
  l.opened_tracks track

/-- HashMap::insert on the backing map. -/
def TrackLoader.insert (l : TrackLoader) (track : SpotifyId) (e : OpenedTrack) : TrackLoader :=
  ⟨fun k => if k = track then some e else l.opened_tracks k⟩

/-- HashMap::remove on the backing map. -/
def TrackLoader.remove (l : TrackLoader) (track : SpotifyId) : TrackLoader :=
  ⟨fun k => if k = track then none else l.opened_tracks k⟩

/-- src/audio/loader.rs: `TrackLoader::close` — decrements the ref count;
when the previous count was <= 1 the entry is removed; an absent id is an
error. -/
def TrackLoader.close (l : TrackLoader) (track : SpotifyId) : Except String TrackLoader :=
  match l.get_opened track with
  | some loaded_track =>
      let d := loaded_track.decr_ref
      if d.1 ≤ 1 then .ok (l.remove track)
      else .ok (l.insert track d.2)
  | none => .error "No track is currently open"

/-- src/audio/loader.rs: `TrackLoader::seek` — forwards a seek-from-start
to the entry; an absent id is an error. -/
def TrackLoader.seek (l : TrackLoader) (track : SpotifyId) (position : Nat) :
    Except String (Nat × TrackLoader) :=
  match l.get_opened track with
  | some loaded_track =>
      match loaded_track.file.seek (.Start position) with
      | .ok r => .ok (r.1, l.insert track { loaded_track with file := r.2 })
      | .error e => .error e
  | none => .error "No track is currently open"

/-- Result of `TrackLoader::open`: the returned (filesize, format) or
error, the updated registry, and how many acquisitions (`load_track`
invocations of the external metadata/content/key capabilities) were
performed. -/
structure OpenOut where
  result : Except String (Int × AudioFileFormat)
  loader : TrackLoader
  acquisitions : Nat

/-- src/audio/loader.rs: `TrackLoader::open` — on a resident id the ref
count is bumped and the recorded (len, format) returned with no
acquisition; on a miss `load_track` runs (its outcome is the oracle
argument `load_track`) and the entry is inserted with ref count 1. -/
def TrackLoader.open (l : TrackLoader) (track : SpotifyId)
    (load_track : Option LoadedTrack) : OpenOut :=
  match l.get_opened track with
  | some loaded_track =>
      { result := .ok (castToI64 loaded_track.len, loaded_track.format)
        loader := l.insert track loaded_track.incr_ref.2
        acquisitions := 0 }
  | none =>
      match load_track with
      | some r =>
          { result := .ok (castToI64 r.controller.len, r.format)
            loader := l.insert track (OpenedTrack.new r.file r.controller r.format)
            acquisitions := 1 }
      | none =>
          { result := .error "unable to load track"
            loader := l
            acquisitions := 1 }

theorem TrackLoader.get_insert_self (l : TrackLoader) (t : SpotifyId) (e : OpenedTrack) :
    (l.insert t e).get_opened t = some e := by
  simp [TrackLoader.insert, TrackLoader.get_opened]

theorem TrackLoader.get_insert_ne (l : TrackLoader) (t k : SpotifyId) (e : OpenedTrack)
    (hk : k ≠ t) : (l.insert t e).get_opened k = l.get_opened k := by
  simp [TrackLoader.insert, TrackLoader.get_opened, hk]

theorem TrackLoader.get_remove_self (l : TrackLoader) (t : SpotifyId) :
    (l.remove t).get_opened t = none := by
  simp [TrackLoader.remove, TrackLoader.get_opened]

theorem U16MOD_eq : U16MOD = 65536 := by norm_num [U16MOD]

/-- Claim C3: the per-id registry state machine.  First open creates the
entry with ref count 1; a further open increments the count by 1; a close
with count n > 1 decrements to n-1; a close with count 1 removes the
entry; close and seek on an absent id fail with the NotOpen error; and
after open followed by close, a second close fails with NotOpen. -/
theorem registry_state_machine (l : TrackLoader) (track : SpotifyId)
    (entry : OpenedTrack) (res : LoadedTrack) (oracle : Option LoadedTrack) (p : Nat) :
    (l.get_opened track = none →
      (l.open track (some res)).loader.get_opened track =
        some (OpenedTrack.new res.file res.controller res.format) ∧
      (OpenedTrack.new res.file res.controller res.format).ref_count = 1) ∧
    (l.get_opened track = some entry → entry.ref_count + 1 < U16MOD →
      (l.open track oracle).loader.get_opened track =
        some { entry with ref_count := entry.ref_count + 1 }) ∧
    (l.get_opened track = some entry → 1 < entry.ref_count → entry.ref_count < U16MOD →
      l.close track = .ok (l.insert track { entry with ref_count := entry.ref_count - 1 }) ∧
      (l.insert track { entry with ref_count := entry.ref_count - 1 }).get_opened track =
        some { entry with ref_count := entry.ref_count - 1 }) ∧
    (l.get_opened track = some entry → entry.ref_count = 1 →
      l.close track = .ok (l.remove track) ∧ (l.remove track).get_opened track = none) ∧
    (l.get_opened track = none → l.close track = .error "No track is currently open") ∧
    (l.get_opened track = none → l.seek track p = .error "No track is currently open") ∧
    (l.get_opened track = none →
      (l.open track (some res)).loader.close track =
        .ok ((l.open track (some res)).loader.remove track) ∧
      ((l.open track (some res)).loader.remove track).close track =
        .error "No track is currently open") := by
  refine ⟨?_, ?_, ?_, ?_, ?_, ?_, ?_⟩
  · intro h
    refine ⟨?_, rfl⟩
    simp [TrackLoader.open, h, TrackLoader.get_insert_self]
  · intro h he
    simp only [TrackLoader.open, h]
    rw [TrackLoader.get_insert_self]
    simp only [OpenedTrack.incr_ref]
    rw [Nat.mod_eq_of_lt he]
  · intro h h1 h2
    rw [U16MOD_eq] at h2
    have hd : (entry.ref_count + (U16MOD - 1)) % U16MOD = entry.ref_count - 1 := by
      rw [U16MOD_eq]; omega
    constructor
    · simp only [TrackLoader.close, h, OpenedTrack.decr_ref]
      rw [if_neg (by omega), hd]
    · rw [TrackLoader.get_insert_self]
  · intro h h1
    simp only [TrackLoader.close, h, OpenedTrack.decr_ref, h1]
    exact ⟨rfl, TrackLoader.get_remove_self l track⟩
  · intro h
    simp [TrackLoader.close, h]
  · intro h
    simp [TrackLoader.seek, h]
  · intro h
    have hopen : (l.open track (some res)).loader.get_opened track =
        some (OpenedTrack.new res.file res.controller res.format) := by
      simp [TrackLoader.open, h, TrackLoader.get_insert_self]
    constructor
    · simp only [TrackLoader.close, hopen, OpenedTrack.decr_ref, OpenedTrack.new]
      rfl
    · simp [TrackLoader.close, TrackLoader.get_remove_self]

def sampleStream : ByteStream := ⟨List.replicate 10 3, 0⟩

def sampleSubfile : Subfile := ⟨sampleStream, 0, 10⟩

def sampleController : StreamLoaderController := ⟨10⟩

def sampleLoaded : LoadedTrack := ⟨sampleSubfile, .OGG_VORBIS_320, sampleController⟩

def sampleEntry : OpenedTrack := ⟨sampleSubfile, sampleController, 2, .OGG_VORBIS_320⟩

def sampleEntry1 : OpenedTrack := ⟨sampleSubfile, sampleController, 1, .OGG_VORBIS_320⟩

def emptyLoader : TrackLoader := ⟨fun _ => none⟩

def oneLoader : TrackLoader := ⟨fun k => if k = 1 then some sampleEntry else none⟩

def oneRefLoader : TrackLoader := ⟨fun k => if k = 1 then some sampleEntry1 else none⟩

/-- Closed instance of registry_state_machine, at an absent id, an entry
with ref count 2 and an entry with ref count 1. -/
theorem registry_state_machine_witness :
    ((emptyLoader.open 1 (some sampleLoaded)).loader.get_opened 1 =
        some (OpenedTrack.new sampleLoaded.file sampleLoaded.controller sampleLoaded.format)) ∧
    (emptyLoader.close 1 = .error "No track is currently open") ∧
    (emptyLoader.seek 1 0 = .error "No track is currently open") ∧
    ((oneLoader.open 1 none).loader.get_opened 1 = some { sampleEntry with ref_count := 3 }) ∧
    (oneLoader.close 1 = .ok (oneLoader.insert 1 { sampleEntry with ref_count := 1 })) ∧
    (oneRefLoader.close 1 = .ok (oneRefLoader.remove 1)) ∧
    (((emptyLoader.open 1 (some sampleLoaded)).loader.remove 1).close 1 =
        .error "No track is currently open") :=
  ⟨((registry_state_machine emptyLoader 1 sampleEntry sampleLoaded none 0).1 rfl).1,
   (registry_state_machine emptyLoader 1 sampleEntry sampleLoaded none 0).2.2.2.2.1 rfl,
   (registry_state_machine emptyLoader 1 sampleEntry sampleLoaded none 0).2.2.2.2.2.1 rfl,
   (registry_state_machine oneLoader 1 sampleEntry sampleLoaded none 0).2.1 rfl (by decide),
   ((registry_state_machine oneLoader 1 sampleEntry sampleLoaded none 0).2.2.1 rfl
      (by decide) (by decide)).1,
   ((registry_state_machine oneRefLoader 1 sampleEntry1 sampleLoaded none 0).2.2.2.1 rfl
      rfl).1,
   ((registry_state_machine emptyLoader 1 sampleEntry sampleLoaded none 0).2.2.2.2.2.2
      rfl).2⟩

/-- Claim C5: open on a resident id performs no acquisition (the outcome
is independent of the acquisition oracle and the acquisition counter is
0), leaves the stream, controller and format of the entry unchanged while
incrementing only the ref count, leaves other ids untouched, and returns
the same (filesize, format) pair recorded at the first acquisition. -/
theorem open_resident_no_acquisition (l m : TrackLoader) (track k : SpotifyId)
    (res : LoadedTrack) (entry : OpenedTrack) (o o2 : Option LoadedTrack)
    (hl : l.get_opened track = none)
    (hm : m.get_opened track = some entry)
    (hk : k ≠ track) :
    (m.open track o).result = .ok (castToI64 entry.controller.len, entry.audio_format) ∧
    (m.open track o).acquisitions = 0 ∧
    m.open track o = m.open track o2 ∧
    (m.open track o).loader.get_opened track =
      some { entry with ref_count := (entry.ref_count + 1) % U16MOD } ∧
    (m.open track o).loader.get_opened k = m.get_opened k ∧
    ((l.open track (some res)).result = .ok (castToI64 res.controller.len, res.format) ∧
      ((l.open track (some res)).loader.open track o).result =
        (l.open track (some res)).result) := by
  refine ⟨?_, ?_, ?_, ?_, ?_, ?_, ?_⟩
  · simp [TrackLoader.open, hm, OpenedTrack.len, OpenedTrack.format]
  · simp [TrackLoader.open, hm]
  · simp [TrackLoader.open, hm]
  · simp only [TrackLoader.open, hm]
    rw [TrackLoader.get_insert_self]
    rfl
  · simp only [TrackLoader.open, hm]
    exact TrackLoader.get_insert_ne _ _ _ _ hk
  · simp [TrackLoader.open, hl]
  · simp only [TrackLoader.open, hl]
    rw [TrackLoader.get_insert_self]
    simp [OpenedTrack.len, OpenedTrack.format, OpenedTrack.new]

/-- Closed instance of open_resident_no_acquisition. -/
theorem open_resident_no_acquisition_witness :
    ((oneLoader.open 1 none).result = .ok (castToI64 10, .OGG_VORBIS_320)) ∧
    ((oneLoader.open 1 none).acquisitions = 0) ∧
    (oneLoader.open 1 none = oneLoader.open 1 (some sampleLoaded)) ∧
    ((oneLoader.open 1 none).loader.get_opened 1 = some { sampleEntry with ref_count := 3 }) ∧
    ((oneLoader.open 1 none).loader.get_opened 2 = oneLoader.get_opened 2) ∧
    ((emptyLoader.open 1 (some sampleLoaded)).result = .ok (castToI64 10, .OGG_VORBIS_320) ∧
      ((emptyLoader.open 1 (some sampleLoaded)).loader.open 1 none).result =
        (emptyLoader.open 1 (some sampleLoaded)).result) :=
  open_resident_no_acquisition emptyLoader oneLoader 1 2 sampleLoaded sampleEntry none
    (some sampleLoaded) rfl rfl (by decide)

/-- librespot_metadata::audio::AudioItem, reduced to the fields
`find_available_alternative` inspects: availability, the offered files
and the optional alternative ids. -/
structure AudioItem where
  id : SpotifyId
  availability : Except String Unit
  files : List (AudioFileFormat × Nat)
  alternatives : Option (List SpotifyId)

/-- `Result::ok()`, used by the `.filter_map(|x| x.ok())` stage. -/
def resultOk : Except String AudioItem → Option AudioItem
  | .ok a => some a
  | .error _ => none

/-- `x.availability.is_ok()`. -/
def availabilityOk (a : AudioItem) : Bool :=
  match a.availability with
  | .ok _ => true
  | .error _ => false

/-- src/audio/loader.rs: `TrackLoader::find_available_alternative`.  An
item whose availability is Err yields None at once.  An available item
with a non-empty file map is returned as is.  Otherwise, when
alternatives are present, `AudioItem::get_file` (modelled by the
`get_file` argument) is raced over all alternatives through a
FuturesUnordered; the race yields results in completion order, which is
some permutation of the alternative list and is passed here as the
`completion_order` argument; the first fetched result that is Ok and
whose availability is ok wins. -/
def TrackLoader.find_available_alternative
    (get_file : SpotifyId → Except String AudioItem)
    (completion_order : List SpotifyId) (audio_item : AudioItem) : Option AudioItem :=
  match audio_item.availability with
  | .error _ => none
  | .ok _ =>
    if audio_item.files.isEmpty = false then some audio_item
    else
      match audio_item.alternatives with
      | some _ =>
          (((completion_order.map get_file).filterMap resultOk).filter
            (fun x => availabilityOk x)).head?
      | none => none

/-- Modelled from the spec: take the first alternative, in completion
order, whose fetch succeeds and whose availability check succeeds. -/
def firstSuccessfulAlternative (get_file : SpotifyId → Except String AudioItem) :
    List SpotifyId → Option AudioItem
  | [] => none
  | id :: rest =>
    match get_file id with
    | .ok a => if availabilityOk a then some a else firstSuccessfulAlternative get_file rest
    | .error _ => firstSuccessfulAlternative get_file rest

theorem race_head_eq_firstSuccessful (get_file : SpotifyId → Except String AudioItem)
    (order : List SpotifyId) :
    (((order.map get_file).filterMap resultOk).filter (fun x => availabilityOk x)).head? =
      firstSuccessfulAlternative get_file order := by
  induction order with
  | nil => rfl
  | cons id rest ih =>
    simp only [List.map_cons, List.filterMap_cons, firstSuccessfulAlternative]
    cases hgf : get_file id with
    | ok a =>
      simp only [resultOk, List.filter_cons]
      cases hav : availabilityOk a with
      | true => simp only [hav, if_true, List.head?_cons]
      | false =>
        simp only [hav, Bool.false_eq_true, if_false]
        exact ih
    | error e =>
      simp only [resultOk]
      exact ih

def availableAlt : AudioItem :=
  ⟨2, .ok (), [(AudioFileFormat.OGG_VORBIS_320, 7)], none⟩

def unavailableItem : AudioItem :=
  ⟨1, .error "track restricted", [], some [2]⟩

def altGetFile : SpotifyId → Except String AudioItem := fun _ => .ok availableAlt

/-- Claim C1 counterexample: a track whose resolved metadata is marked
unavailable and which carries an alternative whose availability check
succeeds; the code nevertheless reports Unavailable (None) without ever
probing the alternative, because the Err-availability branch returns
before the alternatives branch is reached. -/
theorem find_available_alternative_skips_alternatives :
    TrackLoader.find_available_alternative altGetFile [2] unavailableItem = none ∧
    unavailableItem.alternatives = some [2] ∧
    availabilityOk availableAlt = true ∧
    altGetFile 2 = .ok availableAlt :=
  ⟨rfl, rfl, rfl, rfl⟩

/-- Claim C1 amended: an item marked unavailable yields Unavailable at
once, with no alternative probing; an available item with files is used
directly; alternatives are raced only for an available item with an
empty file map, and the winner is the first fetch, in completion order,
that succeeds with availability ok. -/
theorem find_available_alternative_branches
    (get_file : SpotifyId → Except String AudioItem)
    (order alts : List SpotifyId) (item : AudioItem) (e : String) :
    (item.availability = .error e →
      TrackLoader.find_available_alternative get_file order item = none) ∧
    (item.availability = .ok () → item.files ≠ [] →
      TrackLoader.find_available_alternative get_file order item = some item) ∧
    (item.availability = .ok () → item.files = [] → item.alternatives = some alts →
      order.Perm alts →
      TrackLoader.find_available_alternative get_file order item =
        firstSuccessfulAlternative get_file order) := by
  refine ⟨?_, ?_, ?_⟩
  · intro h
    simp [TrackLoader.find_available_alternative, h]
  · intro h hf
    simp [TrackLoader.find_available_alternative, h, hf]
  · intro h hf ha hperm
    simp only [TrackLoader.find_available_alternative, h, hf, ha, List.isEmpty_nil,
      Bool.true_eq_false, if_false]
    exact race_head_eq_firstSuccessful get_file order

/-- Closed instance of find_available_alternative_branches. -/
theorem find_available_alternative_branches_witness :
    (TrackLoader.find_available_alternative altGetFile [2] unavailableItem = none) ∧
    (TrackLoader.find_available_alternative altGetFile [2] availableAlt = some availableAlt) ∧
    (TrackLoader.find_available_alternative altGetFile [2] unavailableItem =
      firstSuccessfulAlternative altGetFile [2] ∨
      TrackLoader.find_available_alternative altGetFile [2] unavailableItem = none) :=
  ⟨(find_available_alternative_branches altGetFile [2] [2] unavailableItem
      "track restricted").1 rfl,
   (find_available_alternative_branches altGetFile [2] [2] availableAlt "x").2.1 rfl
     (by simp [availableAlt]),
   .inr ((find_available_alternative_branches altGetFile [2] [2] unavailableItem
      "track restricted").1 rfl)⟩

/-- The wire chunk type (pb::ReadChunk): data bytes and the eof flag. -/
structure ReadChunk where
  data : List Nat
  eof : Bool
deriving Repr, DecidableEq

/-- Primitive observable events of the spawned read task in
src/main.rs: acquiring and releasing the loader lock, the initial seek,
each read call (with the requested buffer size), and each item pushed
into the channel. -/
inductive ReadEvent where
  | lockAcquire
  | lockRelease
  | seekCall (pos : Nat)
  | readCall (n : Nat)
  | sendChunk (c : ReadChunk)
  | sendError (msg : String)
deriving Repr, DecidableEq

/-- Output of the read loop: its event trace, the chunks sent, and the
final state of the stream of the entry. -/
structure LoopOut where
  events : List ReadEvent
  chunks : List ReadChunk
  file : Subfile
deriving Repr

/-- src/main.rs (TrackService::read, spawned producer loop), one
iteration step: allocate a buffer of min(chunk_size, limit - read), read
into it, push a chunk with eof = (readsize == 0), stop on a zero-byte
read or once read >= limit.  The model assumes the consumer stays
connected (every send succeeds); underlying reads on the modelled stream
are infallible.  `fuel` is the termination measure limit - read of the loop;
each continuing iteration reads at least one byte, so with fuel =
limit - read at entry the fuel-exhaustion branch is unreachable (see
readLoopGo_fuel_irrelevant). -/
def loopStop (f : Subfile) (n : Nat) : LoopOut :=
  ⟨[.readCall n, .sendChunk ⟨(f.read n).1, (f.read n).1.length == 0⟩],
   [⟨(f.read n).1, (f.read n).1.length == 0⟩], (f.read n).2⟩

def loopCons (n : Nat) (bytes : List Nat) (rest : LoopOut) : LoopOut :=
  ⟨.readCall n :: .sendChunk ⟨bytes, bytes.length == 0⟩ :: rest.events,
   ⟨bytes, bytes.length == 0⟩ :: rest.chunks, rest.file⟩

def readLoopGo (fuel : Nat) (f : Subfile) (chunkSize limit read : Nat) : LoopOut :=
  if (f.read (min chunkSize (limit - read))).1.length = 0 then
    loopStop f (min chunkSize (limit - read))
  else if limit ≤ read + (f.read (min chunkSize (limit - read))).1.length then
    loopStop f (min chunkSize (limit - read))
  else
    match fuel with
    | 0 => loopStop f (min chunkSize (limit - read))
    | fuel + 1 =>
      loopCons (min chunkSize (limit - read)) (f.read (min chunkSize (limit - read))).1
        (readLoopGo fuel (f.read (min chunkSize (limit - read))).2 chunkSize limit
          (read + (f.read (min chunkSize (limit - read))).1.length))

/-- The producer loop of src/main.rs, entered with read = the number of
bytes already transferred. -/
def readLoopRun (f : Subfile) (chunkSize limit read : Nat) : LoopOut :=
  readLoopGo (limit - read) f chunkSize limit read

/-- Output of the whole spawned read task: its event trace, the stream
items delivered to the channel, and the updated registry. -/
structure TaskOut where
  events : List ReadEvent
  items : List (Except String ReadChunk)
  loader : TrackLoader

/-- src/main.rs (TrackService::read, spawned task): the loader lock is
acquired once when the task starts and the guard is dropped when the
task ends; under it the entry is looked up, sought to `offset`, and the
read loop runs; an absent id produces a single error item. -/
def readTaskRun (l : TrackLoader) (track : SpotifyId) (offset limit chunkSize : Nat) :
    TaskOut :=
  match l.get_opened track with
  | some loaded_track =>
      match loaded_track.file.seek (.Start offset) with
      | .error e =>
          { events := [.lockAcquire, .seekCall offset,
              .sendError ("seek failed: " ++ e), .lockRelease]
            items := [.error ("seek failed: " ++ e)]
            loader := l }
      | .ok r =>
          let out := readLoopRun r.2 chunkSize limit 0
          { events := .lockAcquire :: .seekCall offset :: out.events ++ [.lockRelease]
            items := out.chunks.map .ok
            loader := l.insert track { loaded_track with file := out.file } }
  | none =>
      { events := [.lockAcquire, .sendError "No track is currently open", .lockRelease]
        items := [.error "No track is currently open"]
        loader := l }

/-- src/main.rs (TrackService::read, lines 440-444): chunk_size 0 selects
the 10240 default, otherwise max(128, min(chunk_size, 10240)). -/
def chunkSizeClamp (chunk_size : Nat) : Nat :=
  if chunk_size == 0 then 10240 else max 128 (min chunk_size 10240)

/-- src/main.rs: the TrackService::read handler: an unparsable track ref
is the only failure of the call itself; otherwise the clamped chunk size
is computed, the producer task is spawned and the receiving stream is
returned successfully. -/
def TrackService.read (l : TrackLoader) (track : Option SpotifyId)
    (offset limit chunk_size : Nat) : Except String TaskOut :=
  match track with
  | none => .error "track id is invalid"
  | some t => .ok (readTaskRun l t offset limit (chunkSizeClamp chunk_size))

/-- Claim C7: the effective chunk size always lies in [128, 10240]; a
requested 0 selects the default 10240; 50000 clamps to 10240 and 1
clamps to 128. -/
theorem chunk_size_clamped (req : Nat) :
    (128 ≤ chunkSizeClamp req ∧ chunkSizeClamp req ≤ 10240) ∧
    chunkSizeClamp 0 = 10240 ∧ chunkSizeClamp 50000 = 10240 ∧ chunkSizeClamp 1 = 128 := by
  refine ⟨?_, by decide, by decide, by decide⟩
  rcases Nat.eq_zero_or_pos req with h | h
  · subst h; decide
  · unfold chunkSizeClamp
    rw [if_neg (by simp; omega)]
    exact ⟨Nat.le_max_left _ _, Nat.max_le.mpr ⟨by norm_num, Nat.min_le_right _ _⟩⟩

theorem Subfile.read_len (f : Subfile) (n : Nat) :
    (f.read n).1.length = min n (f.stream.data.length - f.stream.pos) := by
  simp only [Subfile.read, ByteStream.read]
  rw [List.length_take, List.length_drop, Nat.min_assoc, Nat.min_self]

theorem Subfile.read_snd_pos (f : Subfile) (n : Nat) :
    (f.read n).2.stream.pos = f.stream.pos + (f.read n).1.length := by
  rw [Subfile.read_len]; rfl

theorem Subfile.read_snd_data (f : Subfile) (n : Nat) :
    (f.read n).2.stream.data = f.stream.data := rfl

def isLockAcquire : ReadEvent → Bool
  | .lockAcquire => true
  | _ => false

def isLockRelease : ReadEvent → Bool
  | .lockRelease => true
  | _ => false

def isReadCall : ReadEvent → Bool
  | .readCall _ => true
  | _ => false

def countLockAcquires (es : List ReadEvent) : Nat := (es.filter isLockAcquire).length

def countLockReleases (es : List ReadEvent) : Nat := (es.filter isLockRelease).length

def countReadCalls (es : List ReadEvent) : Nat := (es.filter isReadCall).length

theorem length_beq_isEmpty (l : List Nat) : ((l.length == 0) == l.isEmpty) = true := by
  cases l <;> rfl

/-- One unfolding of readLoopGo, valid for an arbitrary fuel value. -/
theorem readLoopGo_step (fuel : Nat) (f : Subfile) (cs limit r : Nat) :
    readLoopGo fuel f cs limit r =
      if (f.read (min cs (limit - r))).1.length = 0 then
        loopStop f (min cs (limit - r))
      else if limit ≤ r + (f.read (min cs (limit - r))).1.length then
        loopStop f (min cs (limit - r))
      else
        match fuel with
        | 0 => loopStop f (min cs (limit - r))
        | fuel + 1 =>
          loopCons (min cs (limit - r)) (f.read (min cs (limit - r))).1
            (readLoopGo fuel (f.read (min cs (limit - r))).2 cs limit
              (r + (f.read (min cs (limit - r))).1.length)) := by
  cases fuel <;> rfl

/-- The fuel-exhaustion branch of readLoopGo is unreachable whenever the
fuel is at least the termination measure limit - read, so the embedding
does not depend on the particular sufficient fuel. -/
theorem readLoopGo_fuel_irrelevant (fuel : Nat) :
    ∀ (fuel2 : Nat) (f : Subfile) (cs limit r : Nat), limit - r ≤ fuel → limit - r ≤ fuel2 →
      readLoopGo fuel f cs limit r = readLoopGo fuel2 f cs limit r := by
  induction fuel with
  | zero =>
    intro fuel2 f cs limit r h h2
    have hlr : limit - r = 0 := by omega
    have h0 : (f.read (min cs (limit - r))).1.length = 0 := by
      rw [Subfile.read_len, hlr, Nat.min_zero]
      exact Nat.zero_min _
    rw [readLoopGo_step 0, readLoopGo_step fuel2, if_pos h0, if_pos h0]
  | succ fuel ih =>
    intro fuel2 f cs limit r h h2
    rw [readLoopGo_step (fuel + 1), readLoopGo_step fuel2]
    by_cases h0 : (f.read (min cs (limit - r))).1.length = 0
    · rw [if_pos h0, if_pos h0]
    · rw [if_neg h0, if_neg h0]
      by_cases h1 : limit ≤ r + (f.read (min cs (limit - r))).1.length
      · rw [if_pos h1, if_pos h1]
      · rw [if_neg h1, if_neg h1]
        cases fuel2 with
        | zero => omega
        | succ fuel2 =>
          exact congrArg (loopCons (min cs (limit - r)) (f.read (min cs (limit - r))).1)
            (ih fuel2 _ cs limit _ (by omega) (by omega))

/-- Joint loop invariant, by induction on the fuel: the eof flag of every chunk
flag equals emptiness of its data (the read that produced it returned
zero bytes); when the stream holds at least limit - read bytes past the
cursor no chunk is final-marked; and the loop emits no lock events. -/
theorem readLoopGo_aux (fuel : Nat) :
    ∀ (f : Subfile) (cs limit r : Nat), limit - r ≤ fuel →
      (((readLoopGo fuel f cs limit r).chunks.all fun c => c.eof == c.data.isEmpty) = true) ∧
      (0 < cs → r < limit → f.stream.pos + (limit - r) ≤ f.stream.data.length →
        ((readLoopGo fuel f cs limit r).chunks.all fun c => !c.eof) = true) ∧
      (((readLoopGo fuel f cs limit r).events.all
          fun e => !(isLockAcquire e) && !(isLockRelease e)) = true) := by
  induction fuel with
  | zero =>
    intro f cs limit r h
    have hlr : limit - r = 0 := by omega
    have h0 : (f.read (min cs (limit - r))).1.length = 0 := by
      rw [Subfile.read_len, hlr, Nat.min_zero]
      exact Nat.zero_min _
    rw [readLoopGo_step 0, if_pos h0]
    refine ⟨by simp [loopStop, length_beq_isEmpty], ?_,
      by simp [loopStop, isLockAcquire, isLockRelease]⟩
    intro hcs hr hlen
    omega
  | succ fuel ih =>
    intro f cs limit r h
    rw [readLoopGo_step (fuel + 1)]
    by_cases h0 : (f.read (min cs (limit - r))).1.length = 0
    · rw [if_pos h0]
      refine ⟨by simp [loopStop, length_beq_isEmpty], ?_,
        by simp [loopStop, isLockAcquire, isLockRelease]⟩
      intro hcs hr hlen
      exfalso
      rw [Subfile.read_len] at h0
      rcases Nat.min_eq_zero_iff.mp h0 with h2 | h2
      · rcases Nat.min_eq_zero_iff.mp h2 with h3 | h3 <;> omega
      · omega
    · rw [if_neg h0]
      by_cases h1 : limit ≤ r + (f.read (min cs (limit - r))).1.length
      · rw [if_pos h1]
        refine ⟨by simp [loopStop, length_beq_isEmpty], ?_,
          by simp [loopStop, isLockAcquire, isLockRelease]⟩
        intro hcs hr hlen
        simp [loopStop, h0]
      · rw [if_neg h1]
        have hrec := ih (f.read (min cs (limit - r))).2 cs limit
          (r + (f.read (min cs (limit - r))).1.length) (by omega)
        refine ⟨?_, ?_, ?_⟩
        · simp only [loopCons, List.all_cons, Bool.and_eq_true]
          exact ⟨length_beq_isEmpty _, hrec.1⟩
        · intro hcs hr hlen
          have hklen : (f.read (min cs (limit - r))).1.length ≤
              f.stream.data.length - f.stream.pos := by
            rw [Subfile.read_len]; exact Nat.min_le_right _ _
          simp only [loopCons, List.all_cons, Bool.and_eq_true]
          constructor
          · simp [h0]
          · refine hrec.2.1 hcs (by omega) ?_
            rw [Subfile.read_snd_pos, Subfile.read_snd_data]
            omega
        · simp only [loopCons, List.all_cons, Bool.and_eq_true]
          exact ⟨by simp [isLockAcquire, isLockRelease],
            ⟨by simp [isLockAcquire, isLockRelease], hrec.2.2⟩⟩

/-- Claim C4: in the producer loop of a read session, a chunk is final-marked
(eof = true) exactly when the read that produced it returned zero bytes
(its data is empty); and when the stream holds at least limit - read
bytes past the cursor — so the loop stops because the cumulative count
reaches limit — no emitted chunk is final-marked. -/
theorem read_chunk_eof_exactly_on_zero_read (f : Subfile) (cs limit r : Nat) :
    ((readLoopRun f cs limit r).chunks.all fun c => c.eof == c.data.isEmpty) = true ∧
    (0 < cs → r < limit → f.stream.pos + (limit - r) ≤ f.stream.data.length →
      ((readLoopRun f cs limit r).chunks.all fun c => !c.eof) = true) :=
  ⟨(readLoopGo_aux (limit - r) f cs limit r (Nat.le_refl _)).1,
   fun hcs hr hlen =>
    (readLoopGo_aux (limit - r) f cs limit r (Nat.le_refl _)).2.1 hcs hr hlen⟩

/-- Closed instance of read_chunk_eof_exactly_on_zero_read: 10-byte
stream, chunk size 2, limit 6 — three non-final chunks. -/
theorem read_chunk_eof_witness :
    ((readLoopRun sampleSubfile 2 6 0).chunks.all fun c => c.eof == c.data.isEmpty) = true ∧
    ((readLoopRun sampleSubfile 2 6 0).chunks.all fun c => !c.eof) = true :=
  ⟨(read_chunk_eof_exactly_on_zero_read sampleSubfile 2 6 0).1,
   (read_chunk_eof_exactly_on_zero_read sampleSubfile 2 6 0).2
     (by decide) (by decide) (by decide)⟩

theorem session_trace_shape (p : Nat) (mid : List ReadEvent)
    (hmid : (mid.all fun e => !(isLockAcquire e) && !(isLockRelease e)) = true) :
    countLockAcquires ((ReadEvent.lockAcquire :: ReadEvent.seekCall p :: mid) ++
      [ReadEvent.lockRelease]) = 1 ∧
    countLockReleases ((ReadEvent.lockAcquire :: ReadEvent.seekCall p :: mid) ++
      [ReadEvent.lockRelease]) = 1 ∧
    ((ReadEvent.lockAcquire :: ReadEvent.seekCall p :: mid) ++
      [ReadEvent.lockRelease]).head? = some .lockAcquire ∧
    ((ReadEvent.lockAcquire :: ReadEvent.seekCall p :: mid) ++
      [ReadEvent.lockRelease]).getLast? = some .lockRelease := by
  have hA : mid.filter isLockAcquire = [] := by
    rw [List.filter_eq_nil_iff]
    intro a ha
    have h2 := List.all_eq_true.mp hmid a ha
    simp only [Bool.and_eq_true, Bool.not_eq_true'] at h2
    simp [h2.1]
  have hR : mid.filter isLockRelease = [] := by
    rw [List.filter_eq_nil_iff]
    intro a ha
    have h2 := List.all_eq_true.mp hmid a ha
    simp only [Bool.and_eq_true, Bool.not_eq_true'] at h2
    simp [h2.2]
  refine ⟨?_, ?_, rfl, List.getLast?_concat _⟩
  · simp [countLockAcquires, List.filter_append, List.filter_cons, hA,
      isLockAcquire, isLockRelease]
  · simp [countLockReleases, List.filter_append, List.filter_cons, hR,
      isLockAcquire, isLockRelease]

/-- Claim C9 amended: during a chunked read session the registry lock is
acquired exactly once, when the spawned producer task starts, and
released exactly once, when the task ends, so it is held across every
chunk of the transfer rather than once per chunk. -/
theorem read_session_lock_held_for_transfer (l : TrackLoader) (track : SpotifyId)
    (offset limit cs : Nat) :
    countLockAcquires (readTaskRun l track offset limit cs).events = 1 ∧
    countLockReleases (readTaskRun l track offset limit cs).events = 1 ∧
    (readTaskRun l track offset limit cs).events.head? = some .lockAcquire ∧
    (readTaskRun l track offset limit cs).events.getLast? = some .lockRelease := by
  cases h : l.get_opened track with
  | none =>
    simp only [readTaskRun, h]
    exact ⟨rfl, rfl, rfl, rfl⟩
  | some t =>
    simp only [readTaskRun, h, Subfile.seek, ByteStream.seek]
    exact session_trace_shape offset _
      ((readLoopGo_aux limit _ cs limit 0 (by omega)).2.2)

/-- Claim C9 counterexample: a three-chunk transfer over the sample
registry acquires the lock once, not once per chunk. -/
theorem read_session_lock_not_per_chunk :
    countLockAcquires (readTaskRun oneLoader 1 0 6 2).events = 1 ∧
    countLockReleases (readTaskRun oneLoader 1 0 6 2).events = 1 ∧
    (readTaskRun oneLoader 1 0 6 2).items.length = 3 :=
  ⟨rfl, rfl, rfl⟩

theorem readLoopRun_limit_zero (f : Subfile) (cs : Nat) :
    readLoopRun f cs 0 0 =
      ⟨[.readCall 0, .sendChunk ⟨[], true⟩], [⟨[], true⟩], (f.read 0).2⟩ := by
  have h0 : (f.read (min cs (0 - 0))).1.length = 0 := by
    rw [Subfile.read_len]
    simp
  have h1 : (f.read 0).1 = [] := by
    have h2 := List.length_eq_zero.mp h0
    simpa using h2
  rw [readLoopRun, readLoopGo_step, if_pos h0]
  simp [loopStop, h1]

/-- Claim C8 amended: a read request with limit = 0 on an open track
performs exactly one read call on the underlying stream, with a
zero-sized buffer, emits a single empty chunk marked eof = true, and
terminates. -/
theorem read_limit_zero_one_empty_read (l : TrackLoader) (track : SpotifyId)
    (t : OpenedTrack) (offset cs : Nat) (h : l.get_opened track = some t) :
    countReadCalls (readTaskRun l track offset 0 cs).events = 1 ∧
    ReadEvent.readCall 0 ∈ (readTaskRun l track offset 0 cs).events ∧
    (readTaskRun l track offset 0 cs).items = [.ok ⟨[], true⟩] := by
  simp only [readTaskRun, h, Subfile.seek, ByteStream.seek, readLoopRun_limit_zero]
  refine ⟨rfl, ?_, rfl⟩
  simp

/-- Closed instance of read_limit_zero_one_empty_read. -/
theorem read_limit_zero_one_empty_read_witness :
    countReadCalls (readTaskRun oneLoader 1 0 0 5).events = 1 ∧
    ReadEvent.readCall 0 ∈ (readTaskRun oneLoader 1 0 0 5).events ∧
    (readTaskRun oneLoader 1 0 0 5).items = [.ok ⟨[], true⟩] :=
  read_limit_zero_one_empty_read oneLoader 1 sampleEntry 0 5 rfl

/-- Claim C8 counterexample: with limit = 0 the producer still issues a
read call (with an empty buffer) on the stream of the open track and still
emits one chunk (empty, eof = true), so the session does not terminate
without performing any underlying read. -/
theorem read_limit_zero_performs_a_read :
    countReadCalls (readTaskRun oneLoader 1 0 0 128).events = 1 ∧
    (readTaskRun oneLoader 1 0 0 128).items = [.ok ⟨[], true⟩] :=
  ⟨rfl, rfl⟩

/-- Claim C10: a read on an id with no open registry entry still returns
a successful stream; that stream carries exactly one item — the NotOpen
error — with no data chunk before it, and the registry is unchanged. -/
theorem read_absent_id_error_stream (l : TrackLoader) (track offset limit cs : Nat)
    (h : l.get_opened track = none) :
    TrackService.read l (some track) offset limit cs =
      .ok ⟨[.lockAcquire, .sendError "No track is currently open", .lockRelease],
           [.error "No track is currently open"], l⟩ := by
  simp [TrackService.read, readTaskRun, h]

/-- Closed instance of read_absent_id_error_stream. -/
theorem read_absent_id_error_stream_witness :
    TrackService.read emptyLoader (some 5) 0 100 0 =
      .ok ⟨[.lockAcquire, .sendError "No track is currently open", .lockRelease],
           [.error "No track is currently open"], emptyLoader⟩ :=
  read_absent_id_error_stream emptyLoader 5 0 100 0 rfl
